import Mathlib

/-!
Verification of the bn-api durable action-processing subsystem
(`src/api/src/domain_events/domain_action_monitor.rs` and
`src/db/src/models/events.rs`), as a shallow embedding in Lean 4.

Store operations that live outside the sampled sources (the `DomainAction`
entity's `set_busy`, `find_pending`, connection-pool acquisition, executor
futures) are treated as oracles: their outcomes are inputs to the embedded
monitor functions, which is where all the control flow under verification
lives.
-/

namespace BnApi

/-- Status of a `DomainAction` row (spec §3: Pending, Busy, Success,
Errored, Cancelled). -/
inductive DomainActionStatus
  | Pending
  | Busy
  | Success
  | Errored
  | Cancelled
  deriving DecidableEq, Repr

/-- A `DomainAction` row as the monitor sees it: its id and the
`domain_action_type` used for router lookup (types as opaque numerals),
plus its current status. -/
structure DomainAction where
  id : Nat
  domain_action_type : Nat
  status : DomainActionStatus
  deriving DecidableEq, Repr

/-- Error codes distinguished by `find_actions`' match on `e.error_code`:
`ConcurrencyError` is special-cased, everything else is collapsed into the
wildcard arm. -/
inductive ErrorCode
  | ConcurrencyError
  | OtherError
  deriving DecidableEq, Repr

/-- `DomainActionError` as `find_actions` produces it: either the wrapped
database error (`Err(e.into())`, from a `?` or the non-concurrency lease
arm) or `DomainActionError::Simple(msg)`. -/
inductive DomainActionError
  | database (code : ErrorCode)
  | simple (msg : String)
  deriving DecidableEq, Repr

/-- Outcome of a `DomainAction::set_busy(60, connection)` call, an external
store operation whose result the monitor inspects. -/
inductive SetBusyResult
  | ok
  | err (code : ErrorCode)
  deriving DecidableEq, Repr

/-- Per-index oracle for one iteration of the `find_actions` loop: whether
`database.get_connection()` succeeds for the per-action connection, the
result of `set_busy`, whether `set_errored` succeeds when reached, and
whether `begin_transaction` succeeds. -/
structure ActionEnv where
  connOk : Bool
  setBusy : SetBusyResult
  setErroredOk : Bool
  beginTxOk : Bool
  deriving DecidableEq, Repr

/-- A store write performed during a dispatch pass. -/
inductive StoreEffect
  | setBusy (id : Nat) (leaseSecs : Nat)
  | setErrored (id : Nat) (msg : String)
  | setSuccess (id : Nat)
  deriving DecidableEq, Repr

/-- Lease duration in seconds: `action.set_busy(60, connection)` in
`find_actions`. -/
def leaseDurationSecs : Nat := 60

/-- Per-action execution timeout in seconds:
`Timeout::new(..., Duration::from_secs(55))` in `run_actions` and
`run_til_empty`. -/
def executionTimeoutSecs : Nat := 55

/-- The batch bound both loops pass to `find_actions`:
`cmp::max(1, connection_pool.max / 2)`. -/
def dispatchLimit (connectionPoolMax : Nat) : Nat :=
  max 1 (connectionPoolMax / 2)

/-- The message `set_errored` records when no executor is registered
(verbatim from the source). -/
def noExecutorMsg : String := "Not executor has been created for this action type"

/-- The body of the `for (index, action) in pending_actions` loop in
`DomainActionMonitor::find_actions`. Returns the store effects performed
(they persist even when the pass then errors) together with the pass
result: `.ok` carries the `(executor, action)` pairs pushed into `result`,
an `.error` is what the enclosing `Result` returns. Executors are opaque
numerals, `router` is `get_executor_for`. -/
def findActionsLoop (router : Nat → Option Nat) (limit : Nat)
    (env : Nat → ActionEnv) (index : Nat) :
    List DomainAction →
      List StoreEffect × Except DomainActionError (List (Nat × DomainAction))
  | [] => ([], .ok [])
  | action :: rest =>
    if limit < index then ([], .ok [])
    else if (env index).connOk = false then
      -- per-action get_connection failed: assume pool full, break with Ok(result)
      ([], .ok [])
    else
      match (env index).setBusy with
      | .err .ConcurrencyError =>
        -- another process checked the action out: continue
        findActionsLoop router limit env (index + 1) rest
      | .err code => ([], .error (.database code))
      | .ok =>
        match router action.domain_action_type with
        | none =>
          if (env index).setErroredOk then
            ([.setBusy action.id leaseDurationSecs, .setErrored action.id noExecutorMsg],
             .error (.simple "Could not find executor for this action type"))
          else
            ([.setBusy action.id leaseDurationSecs], .error (.database .OtherError))
        | some command =>
          if (env index).beginTxOk = false then
            ([.setBusy action.id leaseDurationSecs], .error (.database .OtherError))
          else
            let r := findActionsLoop router limit env (index + 1) rest
            (.setBusy action.id leaseDurationSecs :: r.1,
             r.2.map fun l => (command, action) :: l)

/-- `DomainActionMonitor::find_actions`: acquire the shared connection,
call `find_pending`, return `Ok(vec![])` when nothing is pending, else run
the leasing loop from index 0. `connOk` is the top `get_connection`,
`findPendingOk` the `find_pending` call; `pending` is what `find_pending`
returned. -/
def findActions (connOk findPendingOk : Bool) (pending : List DomainAction)
    (router : Nat → Option Nat) (limit : Nat) (env : Nat → ActionEnv) :
    List StoreEffect × Except DomainActionError (List (Nat × DomainAction)) :=
  if connOk = false then ([], .error (.database .OtherError))
  else if findPendingOk = false then ([], .error (.database .OtherError))
  else if pending.isEmpty then ([], .ok [])
  else findActionsLoop router limit env 0 pending

/-- Observable events of a monitor loop iteration: sleeping for the poll
interval (`thread::sleep(Duration::from_secs(interval))`), handing one
leased action to its executor, or a `jlog!` of an error. -/
inductive LoopEvent
  | sleep (secs : Nat)
  | dispatch (executor : Nat) (action : DomainAction)
  | logError (e : DomainActionError)
  deriving DecidableEq, Repr

/-- The inputs one dispatch pass consumes from outside the monitor: outcome
of the shared `get_connection`, of `find_pending`, the pending rows it
returned, and the per-index leasing oracle. -/
structure PassInput where
  connOk : Bool
  findPendingOk : Bool
  pending : List DomainAction
  env : Nat → ActionEnv

/-- One dispatch pass as `run_actions`/`run_til_empty` invoke it:
`find_actions(&database, &router, cmp::max(1, connection_pool.max / 2))`. -/
def runPass (router : Nat → Option Nat) (connectionPoolMax : Nat)
    (inp : PassInput) :
    List StoreEffect × Except DomainActionError (List (Nat × DomainAction)) :=
  findActions inp.connOk inp.findPendingOk inp.pending router
    (dispatchLimit connectionPoolMax) inp.env

/-- How `run_actions` terminates: stop signal received, a `?` propagated a
loop-level error, or the fuel of the embedding ran out (the real loop would
still be running). -/
inductive LoopOutcome
  | stopped
  | errored (e : DomainActionError)
  | fuelOut
  deriving DecidableEq, Repr

/-- The `loop` of `DomainActionMonitor::run_actions`, with `fuel` bounding
the number of iterations modelled. Iteration `i` checks the stop channel
(`rx.try_recv()`), runs `find_actions` on `inp i`, sleeps for `interval`
when it returned no actions, and otherwise spawns each `(command, action)`
pair onto the runtime. The trace collects sleeps and dispatches in order. -/
def runActionsLoop (router : Nat → Option Nat) (connectionPoolMax interval : Nat)
    (stop : Nat → Bool) (inp : Nat → PassInput) (i : Nat) :
    Nat → List LoopEvent × LoopOutcome
  | 0 => ([], .fuelOut)
  | fuel + 1 =>
    if stop i then ([], .stopped)
    else
      match (runPass router connectionPoolMax (inp i)).2 with
      | .error e => ([], .errored e)
      | .ok actions =>
        let evs :=
          if actions.length = 0 then [LoopEvent.sleep interval]
          else actions.map fun p => LoopEvent.dispatch p.1 p.2
        let r := runActionsLoop router connectionPoolMax interval stop inp (i + 1) fuel
        (evs ++ r.1, r.2)

/-- Result of `block_on(timeout.or_else(|err| { jlog!; Err(()) }))` for one
future in `run_til_empty`: `Ok(())` when the execute future succeeded within
the timeout, `Err(())` on executor failure or timeout. -/
inductive ExecResult
  | ok
  | err
  deriving DecidableEq, Repr

/-- The `for f in futures` body of `run_til_empty`: each future is run to
completion and `.unwrap()`ed — an `Err(())` panics the drain. Returns the
dispatch events together with `some num_processed`, or `none` when the
`unwrap` panicked. `j` indexes the oracle within one pass. -/
def runFutures (execOut : Nat → ExecResult) :
    Nat → List (Nat × DomainAction) → List LoopEvent × Option Nat
  | _, [] => ([], some 0)
  | j, f :: rest =>
    match execOut j with
    | .err => ([LoopEvent.dispatch f.1 f.2], none)
    | .ok =>
      let r := runFutures execOut (j + 1) rest
      (LoopEvent.dispatch f.1 f.2 :: r.1, r.2.map (· + 1))

/-- How `run_til_empty` terminates: `Ok(())` after a pass processed zero
actions, a propagated loop-level error, a panic from `.unwrap()` on a
failed execution, or fuel exhaustion. -/
inductive DrainOutcome
  | finished
  | errored (e : DomainActionError)
  | panicked
  | fuelOut
  deriving DecidableEq, Repr

/-- The `loop` of `DomainActionMonitor::run_til_empty`: run `find_actions`,
execute every returned future under the 55s timeout counting
`num_processed`, and break with `Ok(())` once a pass processed zero
actions. There is no sleep and no stop channel. -/
def runTilEmptyLoop (router : Nat → Option Nat) (connectionPoolMax : Nat)
    (inp : Nat → PassInput) (execOut : Nat → Nat → ExecResult) (i : Nat) :
    Nat → List LoopEvent × DrainOutcome
  | 0 => ([], .fuelOut)
  | fuel + 1 =>
    match (runPass router connectionPoolMax (inp i)).2 with
    | .error e => ([], .errored e)
    | .ok actions =>
      match runFutures (execOut i) 0 actions with
      | (evs, none) => (evs, .panicked)
      | (evs, some numProcessed) =>
        if numProcessed = 0 then (evs, .finished)
        else
          let r := runTilEmptyLoop router connectionPoolMax inp execOut (i + 1) fuel
          (evs ++ r.1, r.2)

/-- Outcome of one executor future as `run_actions` observes it when the
spawned `timeout.or_else(...)` resolves: success (carrying whatever store
writes the executor itself performed), an executor-reported failure, or the
55-second timeout firing. -/
inductive ExecOutcome
  | success (effects : List StoreEffect)
  | failure (msg : String)
  | timeout
  deriving DecidableEq, Repr

/-- The store writes the dispatcher itself contributes when a spawned
future resolves: on success the executor's own effects stand; on failure or
timeout the `or_else` closure only calls `jlog!` and yields `Err(())` — it
performs no store write. -/
def dispatchOutcomeEffects : ExecOutcome → List StoreEffect
  | .success effects => effects
  | .failure _ => []
  | .timeout => []

/-- Apply one store effect to a status table keyed by action id. -/
def applyEffect (s : Nat → DomainActionStatus) :
    StoreEffect → Nat → DomainActionStatus
  | .setBusy id _ => fun j => if j = id then .Busy else s j
  | .setErrored id _ => fun j => if j = id then .Errored else s j
  | .setSuccess id => fun j => if j = id then .Success else s j

/-- Apply a list of store effects left to right. -/
def applyEffects (s : Nat → DomainActionStatus) (l : List StoreEffect) :
    Nat → DomainActionStatus :=
  l.foldl applyEffect s

/-- The closure `start()` spawns for the action dispatch worker: it matches
on `run_actions`' result, logs an `Err` via `jlog!`, and returns `Ok(())`
in both arms. The input is the value `run_actions` returned. -/
def actionsWorkerThread (r : Except DomainActionError Unit) :
    List LoopEvent × Except DomainActionError Unit :=
  match r with
  | .ok _ => ([], .ok ())
  | .error e => ([LoopEvent.logError e], .ok ())

/-- The closure `start()` spawns for the event publication worker: it
returns `publish_events_to_actions`' result unchanged. -/
def eventsWorkerThread (r : Except DomainActionError Unit) :
    Except DomainActionError Unit := r

/-- What `stop()` does with one joined handle: `join().unwrap().unwrap()` —
the second `unwrap` panics when the thread returned `Err`. -/
inductive StopOutcome
  | ok
  | panicked (e : DomainActionError)
  deriving DecidableEq, Repr

/-- `.unwrap()` on the `Result` a joined worker returned. -/
def joinUnwrap : Except DomainActionError Unit → StopOutcome
  | .ok _ => .ok
  | .error e => .panicked e

/-- `DomainActionMonitor::stop()`: drain the worker list in spawn order
(actions worker first, events worker second), sending the stop signal and
joining each; the first `Err` handle value panics. The arguments are the
values `run_actions` and `publish_events_to_actions` returned inside their
threads. -/
def stopMonitor (runActionsResult eventsLoopResult : Except DomainActionError Unit) :
    StopOutcome :=
  match joinUnwrap (actionsWorkerThread runActionsResult).2 with
  | .panicked e => .panicked e
  | .ok => joinUnwrap (eventsWorkerThread eventsLoopResult)

/-- Status of an event row. The sampled source only ever compares against
`EventStatus::Published`; the other variants stand for every non-published
status. -/
inductive EventStatus
  | Draft
  | Published
  | Closed
  | Offline
  deriving DecidableEq, Repr

/-- The columns of an event row that `Event::update` reads or writes in the
drip-action path (timestamps as integers). Remaining columns are carried
through the changeset unchanged and never inspected by that path. -/
structure EventRow where
  id : Nat
  name : String
  status : EventStatus
  event_start : Option Int
  event_end : Option Int
  publish_date : Option Int
  private_access_code : Option String
  updated_at : Int
  deriving DecidableEq, Repr

/-- The fields of `EventEditableAttributes` that `Event::update` inspects:
a `none` means the column is left unchanged by the changeset, double
options distinguish set-to-NULL from leave-alone. -/
structure EventEditableAttributes where
  event_start : Option Int := none
  event_end : Option Int := none
  publish_date : Option (Option Int) := none
  private_access_code : Option (Option String) := none
  deriving DecidableEq, Repr

/-- A row creation committed during `Event::update`: either a
`DomainAction::create(...).commit(conn)` or a `DomainEvent::create(...)`. -/
inductive DbOp
  | domainActionCreate (actionType : String) (mainTable : Option String)
      (mainTableId : Option Nat)
  | domainEventCreate (eventType : String) (mainTableId : Option Nat)
  deriving DecidableEq, Repr

/-- The diesel `update(self).set((&event, updated_at.eq(now)))` changeset:
every `some` attribute overwrites its column, `none` attributes leave the
column as it was. -/
def applyChangeset (self : EventRow) (ev : EventEditableAttributes)
    (nowTs : Int) : EventRow :=
  { self with
    event_start :=
      match ev.event_start with
      | some v => some v
      | none => self.event_start
    event_end :=
      match ev.event_end with
      | some v => some v
      | none => self.event_end
    publish_date :=
      match ev.publish_date with
      | some v => v
      | none => self.publish_date
    private_access_code :=
      match ev.private_access_code with
      | some v => v
      | none => self.private_access_code
    updated_at := nowTs }

/-- The `if event.private_access_code.is_some()` preamble of
`Event::update`: an incoming access code is lowercased, a set-to-NULL or
absent one passes through. -/
def lowercaseAccessCode (attributes : EventEditableAttributes) :
    EventEditableAttributes :=
  match attributes.private_access_code with
  | some (some code) =>
    { attributes with private_access_code := some (some code.toLower) }
  | _ => attributes

/-- The `if self.status == EventStatus::Published` preamble of
`Event::update`: a published event whose changeset would NULL its
`publish_date` gets `Utc::now()` instead. -/
def defaultPublishDate (self : EventRow) (ev : EventEditableAttributes)
    (nowTs : Int) : EventEditableAttributes :=
  if self.status = EventStatus.Published then
    match ev.publish_date with
    | some none => { ev with publish_date := some (some nowTs) }
    | _ => ev
  else ev

/-- The row the diesel update in `Event::update` returns: the changeset of
the preprocessed attributes applied to `self`. -/
def eventUpdateResult (self : EventRow) (attributes : EventEditableAttributes)
    (nowTs : Int) : EventRow :=
  applyChangeset self (defaultPublishDate self (lowercaseAccessCode attributes) nowTs)
    nowTs

/-- `Event::update`. Oracles: `validateOk` is `attributes.validate()`,
`datesValidOk` the `n_date_valid` end-after-start check (its code lives
outside the sampled sources), `dbUpdateOk` the diesel update round trip,
`dripCommitOk` the `DomainAction` commit inside
`regenerate_drip_actions`. Returns the updated row (or the first error)
together with the rows created along the way; `previous_start` is
`self.event_start`, captured before the update. -/
def eventUpdate (self : EventRow) (attributes : EventEditableAttributes)
    (nowTs : Int) (validateOk datesValidOk dbUpdateOk dripCommitOk : Bool) :
    Except String EventRow × List DbOp :=
  if validateOk = false then (.error "validation", [])
  else if datesValidOk = false then
    (.error "Event End must be after Event Start", [])
  else if dbUpdateOk = false then (.error "Could not update event", [])
  else
    let result := eventUpdateResult self attributes nowTs
    if self.event_start ≠ result.event_start
        ∧ self.status = EventStatus.Published then
      if dripCommitOk = false then (.error "Could not commit domain action", [])
      else
        (.ok result,
         [.domainActionCreate "RegenerateDripActions" (some "Events") (some result.id),
          .domainEventCreate "EventUpdated" (some self.id)])
    else (.ok result, [.domainEventCreate "EventUpdated" (some self.id)])

/-! Theorems. -/

/-- Helper: a successful `findActionsLoop` never returns more than
`limit + 1 - index` pairs (the `limit < index` guard admits indices
`0..limit`, i.e. `limit + 1` iterations). -/
theorem findActionsLoop_ok_length (router : Nat → Option Nat) (limit : Nat)
    (env : Nat → ActionEnv) (acts : List DomainAction) :
    ∀ (index : Nat) (l : List (Nat × DomainAction)),
      (findActionsLoop router limit env index acts).2 = .ok l →
      l.length + index ≤ limit + 1 ∨ l.length = 0 := by
  induction acts with
  | nil =>
    intro index l h
    simp [findActionsLoop] at h
    right
    simp [← h]
  | cons action rest ih =>
    intro index l h
    simp only [findActionsLoop] at h
    split at h
    · simp at h
      right
      simp [← h]
    · split at h
      · simp at h
        right
        simp [← h]
      · cases hsb : (env index).setBusy with
        | err code =>
          cases code with
          | ConcurrencyError =>
            simp only [hsb] at h
            rcases ih (index + 1) l h with h1 | h1
            · left; omega
            · right; exact h1
          | OtherError =>
            simp [hsb] at h
        | ok =>
          simp only [hsb] at h
          cases hr : router action.domain_action_type with
          | none =>
            simp only [hr] at h
            split at h <;> simp at h
          | some command =>
            simp only [hr] at h
            split at h
            · simp at h
            · cases hrec : (findActionsLoop router limit env (index + 1) rest).2 with
              | error e => simp [hrec, Except.map] at h
              | ok l2 =>
                simp [hrec, Except.map] at h
                rcases ih (index + 1) l2 hrec with h1 | h1
                · left
                  rename_i hlt _ _
                  simp [← h]
                  omega
                · left
                  rename_i hlt _ _
                  simp [← h]
                  omega

/-- C1 counterexample: with a connection pool of capacity 2 the configured
bound is `max(1, 2 / 2) = 1`, yet a pass over three due actions leases two
of them and hands both to executors — the `limit < index` guard is an
off-by-one, so the claimed bound `max(1, connection_pool_capacity / 2)` is
exceeded. -/
theorem dispatch_batch_exceeds_limit_cx :
    (runPass (fun _ => some 7) 2
        ⟨true, true,
         [⟨0, 0, .Pending⟩, ⟨1, 0, .Pending⟩, ⟨2, 0, .Pending⟩],
         fun _ => ⟨true, .ok, true, true⟩⟩).2
      = .ok [(7, ⟨0, 0, .Pending⟩), (7, ⟨1, 0, .Pending⟩)]
    ∧ dispatchLimit 2 < 2 :=
  ⟨rfl, by decide⟩

/-- C1 (amended): the number of actions leased and handed to executors by
one dispatch pass of `run_actions` or `run_til_empty` is at most
`max(1, connection_pool_capacity / 2) + 1` — one more than the spec's
bound, because the loop's `limit < index` guard runs the body for indices
`0..limit` inclusive. -/
theorem dispatch_batch_bound (router : Nat → Option Nat)
    (connectionPoolMax : Nat) (inp : PassInput)
    (l : List (Nat × DomainAction))
    (h : (runPass router connectionPoolMax inp).2 = .ok l) :
    l.length ≤ dispatchLimit connectionPoolMax + 1 := by
  unfold runPass findActions at h
  split at h
  · simp at h
  · split at h
    · simp at h
    · split at h
      · simp at h
        subst h
        simp
      · rcases findActionsLoop_ok_length router (dispatchLimit connectionPoolMax)
          inp.env inp.pending 0 l h with h1 | h1 <;> omega

/-- C1 witness: the bound evaluated on the concrete pass of the
counterexample — two leased actions against a pool of capacity 2. -/
theorem dispatch_batch_bound_witness :
    ([(7, (⟨0, 0, .Pending⟩ : DomainAction)), (7, ⟨1, 0, .Pending⟩)]).length
      ≤ dispatchLimit 2 + 1 :=
  dispatch_batch_bound (fun _ => some 7) 2
    ⟨true, true,
     [⟨0, 0, .Pending⟩, ⟨1, 0, .Pending⟩, ⟨2, 0, .Pending⟩],
     fun _ => ⟨true, .ok, true, true⟩⟩ _ rfl

/-- C2 counterexample: a batch of two due actions in which the first has no
registered executor. The pass marks that action `Errored` and reports the
configuration error, but it aborts: the second due action produces no store
effect and no executor handoff — contradicting the claim that every other
due action in the batch is still executed. -/
theorem missing_executor_aborts_pass_cx :
    findActions true true [⟨0, 5, .Pending⟩, ⟨1, 0, .Pending⟩]
        (fun t => if t = 5 then none else some 7) (dispatchLimit 10)
        (fun _ => ⟨true, .ok, true, true⟩)
      = ([.setBusy 0 leaseDurationSecs, .setErrored 0 noExecutorMsg],
         .error (.simple "Could not find executor for this action type")) :=
  rfl

/-- C2 (amended): when a leased action's `action_type` has no registered
executor, the action is marked `Errored` and the dispatch pass returns a
configuration error, but the pass aborts there: the remaining due actions
of the batch (`rest`, arbitrary) are not leased, not executed, and no
leased action is handed to an executor in that pass. -/
theorem missing_executor_aborts_pass (router : Nat → Option Nat)
    (limit index : Nat) (env : Nat → ActionEnv) (action : DomainAction)
    (rest : List DomainAction)
    (hidx : index ≤ limit) (hconn : (env index).connOk = true)
    (hbusy : (env index).setBusy = .ok)
    (herrok : (env index).setErroredOk = true)
    (hexec : router action.domain_action_type = none) :
    findActionsLoop router limit env index (action :: rest)
      = ([.setBusy action.id leaseDurationSecs,
          .setErrored action.id noExecutorMsg],
         .error (.simple "Could not find executor for this action type")) := by
  have hlt : ¬ limit < index := by omega
  simp [findActionsLoop, hlt, hconn, hbusy, herrok, hexec]

/-- C2 witness: the amended statement evaluated on a concrete batch of two
actions with an empty router. -/
theorem missing_executor_aborts_pass_witness :
    findActionsLoop (fun _ => none) 5 (fun _ => ⟨true, .ok, true, true⟩) 0
        [⟨0, 5, .Pending⟩, ⟨1, 0, .Pending⟩]
      = ([.setBusy 0 leaseDurationSecs, .setErrored 0 noExecutorMsg],
         .error (.simple "Could not find executor for this action type")) :=
  missing_executor_aborts_pass (fun _ => none) 5 0
    (fun _ => ⟨true, .ok, true, true⟩) ⟨0, 5, .Pending⟩ [⟨1, 0, .Pending⟩]
    (by decide) rfl rfl rfl rfl

/-- C3 counterexample: when `run_actions` returns a loop-level error, the
worker closure spawned by `start()` logs it and returns `Ok(())`, so
`stop()` joins a successful handle and surfaces nothing — contradicting the
claim that `stop()` propagates an error from either loop. -/
theorem stop_swallows_dispatch_loop_error_cx :
    stopMonitor (.error (.simple "store outage")) (.ok ()) = .ok
    ∧ (actionsWorkerThread (.error (.simple "store outage"))).2 = .ok () :=
  ⟨rfl, rfl⟩

/-- C3 (amended): `stop()` sends a stop signal to each loop and blocks
until both return, and it surfaces a loop-level error from
`publish_events_to_actions` by panicking on the joined handle; but a
loop-level error from `run_actions` is caught inside its worker thread,
logged, and converted to `Ok(())`, so `stop()` does not surface it. -/
theorem stop_surfaces_only_events_loop_error
    (runActionsResult : Except DomainActionError Unit)
    (e1 e2 : DomainActionError) :
    stopMonitor (.error e1) (.ok ()) = .ok
    ∧ (actionsWorkerThread (.error e1)).1 = [LoopEvent.logError e1]
    ∧ stopMonitor runActionsResult (.error e2) = .panicked e2 := by
  refine ⟨rfl, rfl, ?_⟩
  cases runActionsResult <;> rfl

/-- C4: the 60-second lease passed to `set_busy` strictly exceeds the
55-second per-action execution timeout, so for a lease taken at any instant
the timeout fires strictly before the lease expires. -/
theorem lease_exceeds_execution_timeout :
    executionTimeoutSecs < leaseDurationSecs
    ∧ ∀ leasedAt : Nat,
        leasedAt + executionTimeoutSecs < leasedAt + leaseDurationSecs := by
  refine ⟨by decide, fun t => ?_⟩
  unfold executionTimeoutSecs leaseDurationSecs
  omega

/-- C5: when `set_busy` fails with `ConcurrencyError` at some position of
the batch, the pass continues exactly as if the remaining actions were the
whole batch — the action is skipped, performs no effect, is not retried in
the pass, and causes no pass error; when `set_busy` fails with any other
error code the pass returns that error immediately. -/
theorem concurrency_error_skips_action (router : Nat → Option Nat)
    (limit index : Nat) (env : Nat → ActionEnv) (action : DomainAction)
    (rest : List DomainAction)
    (hidx : index ≤ limit) (hconn : (env index).connOk = true) :
    ((env index).setBusy = .err .ConcurrencyError →
      findActionsLoop router limit env index (action :: rest)
        = findActionsLoop router limit env (index + 1) rest)
    ∧ (∀ code, (env index).setBusy = .err code →
        code ≠ ErrorCode.ConcurrencyError →
        findActionsLoop router limit env index (action :: rest)
          = ([], .error (.database code))) := by
  have hlt : ¬ limit < index := by omega
  constructor
  · intro hbusy
    simp [findActionsLoop, hlt, hconn, hbusy]
  · intro code hbusy hne
    cases code with
    | ConcurrencyError => exact absurd rfl hne
    | OtherError => simp [findActionsLoop, hlt, hconn, hbusy]

/-- C5 witness: both arms evaluated on a concrete two-action batch — a lost
lease race skips the first action, a non-concurrency lease failure errors
the pass. -/
theorem concurrency_error_skips_action_witness :
    (findActionsLoop (fun _ => some 7) 5
        (fun _ => ⟨true, .err .ConcurrencyError, true, true⟩) 0
        [⟨0, 0, .Pending⟩, ⟨1, 0, .Pending⟩]
      = findActionsLoop (fun _ => some 7) 5
        (fun _ => ⟨true, .err .ConcurrencyError, true, true⟩) 1
        [⟨1, 0, .Pending⟩])
    ∧ findActionsLoop (fun _ => some 7) 5
        (fun _ => ⟨true, .err .OtherError, true, true⟩) 0
        [⟨0, 0, .Pending⟩, ⟨1, 0, .Pending⟩]
      = ([], .error (.database .OtherError)) :=
  ⟨(concurrency_error_skips_action (fun _ => some 7) 5 0
      (fun _ => ⟨true, .err .ConcurrencyError, true, true⟩) ⟨0, 0, .Pending⟩
      [⟨1, 0, .Pending⟩] (by decide) rfl).1 rfl,
   (concurrency_error_skips_action (fun _ => some 7) 5 0
      (fun _ => ⟨true, .err .OtherError, true, true⟩) ⟨0, 0, .Pending⟩
      [⟨1, 0, .Pending⟩] (by decide) rfl).2 .OtherError rfl (by decide)⟩

/-- C6: when a dispatched execution times out or resolves with an
executor-reported failure, the dispatcher's `or_else` handler contributes
no store write — in particular it never writes `Errored` — so the action's
status after the lease write and the dispatcher's handling is still `Busy`. -/
theorem failed_execution_leaves_action_busy (s : Nat → DomainActionStatus)
    (action : DomainAction) (outcome : ExecOutcome)
    (h : outcome = .timeout ∨ ∃ msg, outcome = .failure msg) :
    applyEffects s
        (StoreEffect.setBusy action.id leaseDurationSecs
          :: dispatchOutcomeEffects outcome) action.id
      = .Busy
    ∧ ∀ msg, StoreEffect.setErrored action.id msg ∉ dispatchOutcomeEffects outcome := by
  rcases h with h | ⟨msg, h⟩ <;>
    subst h <;>
    exact ⟨by simp [applyEffects, applyEffect, dispatchOutcomeEffects],
           by simp [dispatchOutcomeEffects]⟩

/-- C6 witness: a concrete timed-out action stays `Busy` and receives no
`Errored` write from the dispatcher. -/
theorem failed_execution_leaves_action_busy_witness :
    applyEffects (fun _ => .Pending)
        (StoreEffect.setBusy 17 leaseDurationSecs
          :: dispatchOutcomeEffects .timeout) 17
      = .Busy
    ∧ ∀ msg, StoreEffect.setErrored 17 msg ∉ dispatchOutcomeEffects .timeout :=
  failed_execution_leaves_action_busy (fun _ => .Pending) ⟨17, 0, .Pending⟩
    .timeout (Or.inl rfl)

/-- Helper: executing the futures of one `run_til_empty` pass emits only
dispatch events, never a sleep. -/
theorem runFutures_no_sleep (execOut : Nat → ExecResult) :
    ∀ (j : Nat) (futures : List (Nat × DomainAction)) (secs : Nat),
      LoopEvent.sleep secs ∉ (runFutures execOut j futures).1 := by
  intro j futures
  induction futures generalizing j with
  | nil => intro secs; simp [runFutures]
  | cons f rest ih =>
    intro secs
    cases hex : execOut j with
    | err => simp [runFutures, hex]
    | ok =>
      simp [runFutures, hex]
      exact ih (j + 1) secs

/-- Helper: the trace of `run_til_empty` contains no sleep event, whatever
the passes return and however it terminates. -/
theorem runTilEmptyLoop_no_sleep (router : Nat → Option Nat)
    (connectionPoolMax : Nat) (inp : Nat → PassInput)
    (execOut : Nat → Nat → ExecResult) :
    ∀ (fuel i secs : Nat),
      LoopEvent.sleep secs
        ∉ (runTilEmptyLoop router connectionPoolMax inp execOut i fuel).1 := by
  intro fuel
  induction fuel with
  | zero => intro i secs; simp [runTilEmptyLoop]
  | succ fuel ih =>
    intro i secs
    simp only [runTilEmptyLoop]
    cases hpass : (runPass router connectionPoolMax (inp i)).2 with
    | error e => simp
    | ok actions =>
      simp only
      cases hfut : runFutures (execOut i) 0 actions with
      | mk evs r =>
        cases r with
        | none =>
          simp only
          have := runFutures_no_sleep (execOut i) 0 actions secs
          rw [hfut] at this
          simpa using this
        | some numProcessed =>
          simp only
          split
          · have := runFutures_no_sleep (execOut i) 0 actions secs
            rw [hfut] at this
            simpa using this
          · simp only [List.mem_append]
            push_neg
            constructor
            · have := runFutures_no_sleep (execOut i) 0 actions secs
              rw [hfut] at this
              simpa using this
            · exact ih (i + 1) secs

/-- C7: as soon as a `run_til_empty` pass returns zero actions, the drain
returns `Ok` at once — emitting no event and running no further pass — and
the drain's trace never contains a sleep, whatever the passes return. -/
theorem run_til_empty_stops_on_empty_pass (router : Nat → Option Nat)
    (connectionPoolMax : Nat) (inp : Nat → PassInput)
    (execOut : Nat → Nat → ExecResult) (i fuel : Nat)
    (hpass : (runPass router connectionPoolMax (inp i)).2 = .ok []) :
    runTilEmptyLoop router connectionPoolMax inp execOut i (fuel + 1)
      = ([], .finished)
    ∧ ∀ (i' fuel' secs : Nat),
        LoopEvent.sleep secs
          ∉ (runTilEmptyLoop router connectionPoolMax inp execOut i' fuel').1 := by
  constructor
  · simp [runTilEmptyLoop, hpass, runFutures]
  · intro i' fuel' secs
    exact runTilEmptyLoop_no_sleep router connectionPoolMax inp execOut fuel' i' secs

/-- C7 witness: a drain whose first pass finds nothing pending finishes at
once with an empty trace. -/
theorem run_til_empty_stops_on_empty_pass_witness :
    runTilEmptyLoop (fun _ => some 7) 10
        (fun _ => ⟨true, true, [], fun _ => ⟨true, .ok, true, true⟩⟩)
        (fun _ _ => .ok) 0 3
      = ([], .finished) :=
  (run_til_empty_stops_on_empty_pass (fun _ => some 7) 10
    (fun _ => ⟨true, true, [], fun _ => ⟨true, .ok, true, true⟩⟩)
    (fun _ _ => .ok) 0 2 rfl).1

/-- C8: `run_til_empty` can return `Ok` while a due `Pending` action still
exists. Two concrete drains over a store holding the due pending action 17:
in the first every lease attempt loses to a `ConcurrencyError`, in the
second the per-action connection acquisition fails (pool exhausted). Both
passes process zero actions, so the drain finishes, performs no store
effect, and action 17 is still `Pending`. -/
theorem drain_can_finish_with_pending_actions :
    runTilEmptyLoop (fun _ => some 7) 10
        (fun _ => ⟨true, true, [⟨17, 0, .Pending⟩],
                   fun _ => ⟨true, .err .ConcurrencyError, true, true⟩⟩)
        (fun _ _ => .ok) 0 5
      = ([], .finished)
    ∧ (runPass (fun _ => some 7) 10
        ⟨true, true, [⟨17, 0, .Pending⟩],
         fun _ => ⟨true, .err .ConcurrencyError, true, true⟩⟩).1 = []
    ∧ applyEffects (fun _ => .Pending)
        (runPass (fun _ => some 7) 10
          ⟨true, true, [⟨17, 0, .Pending⟩],
           fun _ => ⟨true, .err .ConcurrencyError, true, true⟩⟩).1 17
      = .Pending
    ∧ runTilEmptyLoop (fun _ => some 7) 10
        (fun _ => ⟨true, true, [⟨17, 0, .Pending⟩],
                   fun _ => ⟨false, .ok, true, true⟩⟩)
        (fun _ _ => .ok) 0 5
      = ([], .finished)
    ∧ applyEffects (fun _ => .Pending)
        (runPass (fun _ => some 7) 10
          ⟨true, true, [⟨17, 0, .Pending⟩],
           fun _ => ⟨false, .ok, true, true⟩⟩).1 17
      = .Pending :=
  ⟨rfl, rfl, rfl, rfl, rfl⟩

/-- C9: an iteration of `run_actions` that saw no stop signal and whose
pass returned `actions` contributes exactly one sleep event when `actions`
is empty and exactly the dispatch events of `actions` (with no sleep) when
it is not: the loop sleeps for the poll interval if and only if the pass
found zero actions. -/
theorem run_actions_sleep_iff_no_actions (router : Nat → Option Nat)
    (connectionPoolMax interval : Nat) (stop : Nat → Bool)
    (inp : Nat → PassInput) (i fuel : Nat)
    (actions : List (Nat × DomainAction))
    (hstop : stop i = false)
    (hpass : (runPass router connectionPoolMax (inp i)).2 = .ok actions) :
    (runActionsLoop router connectionPoolMax interval stop inp i (fuel + 1)).1
      = (if actions.length = 0 then [LoopEvent.sleep interval]
         else actions.map fun p => LoopEvent.dispatch p.1 p.2)
        ++ (runActionsLoop router connectionPoolMax interval stop inp (i + 1) fuel).1
    ∧ (LoopEvent.sleep interval
        ∈ (if actions.length = 0 then [LoopEvent.sleep interval]
           else actions.map fun p => LoopEvent.dispatch p.1 p.2)
       ↔ actions = []) := by
  constructor
  · simp [runActionsLoop, hstop, hpass]
  · cases actions with
    | nil => simp
    | cons a rest => simp [List.mem_map]

/-- C9 witness: a concrete iteration whose pass found nothing sleeps for
the poll interval. -/
theorem run_actions_sleep_iff_no_actions_witness :
    ((runActionsLoop (fun _ => some 7) 10 30 (fun _ => false)
        (fun _ => ⟨true, true, [], fun _ => ⟨true, .ok, true, true⟩⟩) 0 1).1
      = (if ([] : List (Nat × DomainAction)).length = 0
          then [LoopEvent.sleep 30]
          else ([] : List (Nat × DomainAction)).map
            fun p => LoopEvent.dispatch p.1 p.2)
        ++ (runActionsLoop (fun _ => some 7) 10 30 (fun _ => false)
            (fun _ => ⟨true, true, [], fun _ => ⟨true, .ok, true, true⟩⟩) 1 0).1)
    ∧ (LoopEvent.sleep 30
        ∈ (if ([] : List (Nat × DomainAction)).length = 0
            then [LoopEvent.sleep 30]
            else ([] : List (Nat × DomainAction)).map
              fun p => LoopEvent.dispatch p.1 p.2)
       ↔ ([] : List (Nat × DomainAction)) = []) :=
  run_actions_sleep_iff_no_actions (fun _ => some 7) 10 30 (fun _ => false)
    (fun _ => ⟨true, true, [], fun _ => ⟨true, .ok, true, true⟩⟩) 0 0 [] rfl rfl

/-- Helper: the changeset of `Event::update` never changes the row id. -/
theorem eventUpdateResult_id (self : EventRow)
    (attributes : EventEditableAttributes) (nowTs : Int) :
    (eventUpdateResult self attributes nowTs).id = self.id := rfl

/-- C10: a successful `Event::update` commits a `RegenerateDripActions`
domain action referencing the event (`main_table` Events, `main_table_id`
the event's id) if and only if the update changed `event_start` and the
event's status was `Published`. -/
theorem event_update_drip_action_iff (self : EventRow)
    (attributes : EventEditableAttributes) (nowTs : Int)
    (validateOk datesValidOk dbUpdateOk dripCommitOk : Bool)
    (result : EventRow)
    (h : (eventUpdate self attributes nowTs validateOk datesValidOk dbUpdateOk
            dripCommitOk).1 = .ok result) :
    DbOp.domainActionCreate "RegenerateDripActions" (some "Events") (some self.id)
        ∈ (eventUpdate self attributes nowTs validateOk datesValidOk dbUpdateOk
            dripCommitOk).2
      ↔ (self.event_start ≠ result.event_start
         ∧ self.status = EventStatus.Published) := by
  cases validateOk with
  | false => simp [eventUpdate] at h
  | true =>
  cases datesValidOk with
  | false => simp [eventUpdate] at h
  | true =>
  cases dbUpdateOk with
  | false => simp [eventUpdate] at h
  | true =>
  by_cases hcond : self.event_start
      ≠ (eventUpdateResult self attributes nowTs).event_start
      ∧ self.status = EventStatus.Published
  · cases dripCommitOk with
    | false =>
      simp only [eventUpdate] at h
      rw [if_neg (by simp), if_neg (by simp), if_neg (by simp),
        if_pos hcond] at h
      simp at h
    | true =>
      simp only [eventUpdate] at h ⊢
      rw [if_neg (by simp), if_neg (by simp), if_neg (by simp),
        if_pos hcond] at h ⊢
      rw [if_neg (by simp)] at h ⊢
      simp only [Except.ok.injEq] at h
      subst h
      simp only [eventUpdateResult_id]
      constructor
      · intro _
        exact hcond
      · intro _
        exact List.mem_cons_self _ _
  · cases dripCommitOk with
    | false =>
      simp only [eventUpdate] at h ⊢
      rw [if_neg (by simp), if_neg (by simp), if_neg (by simp),
        if_neg hcond] at h ⊢
      simp only [Except.ok.injEq] at h
      subst h
      constructor
      · intro hmem
        simp at hmem
      · intro hc
        exact absurd hc hcond
    | true =>
      simp only [eventUpdate] at h ⊢
      rw [if_neg (by simp), if_neg (by simp), if_neg (by simp),
        if_neg hcond] at h ⊢
      simp only [Except.ok.injEq] at h
      subst h
      constructor
      · intro hmem
        simp at hmem
      · intro hc
        exact absurd hc hcond

/-- C10 witness: a published event whose start moves from 0 to 100 gets the
drip-regeneration action; evaluated on concrete rows. -/
theorem event_update_drip_action_iff_witness :
    DbOp.domainActionCreate "RegenerateDripActions" (some "Events") (some 3)
        ∈ (eventUpdate ⟨3, "e", .Published, some 0, none, none, none, 0⟩
            ⟨some 100, none, none, none⟩ 50 true true true true).2
      ↔ ((some 0 : Option Int) ≠ some 100
         ∧ EventStatus.Published = EventStatus.Published) :=
  event_update_drip_action_iff ⟨3, "e", .Published, some 0, none, none, none, 0⟩
    ⟨some 100, none, none, none⟩ 50 true true true true
    ⟨3, "e", .Published, some 100, none, none, none, 50⟩ rfl

end BnApi
